import Mathlib

/-!
Shallow embedding of two modules of the CALC repository:
`meta/management/commands/ultratest.py` (a sequential test-orchestration CLI)
and `data_capture/admin.py` (admin screens for submitted price lists).

Behaviour that the source delegates to the operating system or to libraries
is modelled as explicit parameters: the exit status of each spawned
subprocess, a possible Ctrl-C during the loop, the state of the
`coverage.xml` file, and the table of existing usernames.  Terminal output
other than the coverage-delta report is elided; the `float` coverage value
is modelled as `ℚ`.
-/

set_option autoImplicit false

namespace Ultratest

/-- One entry of the `TESTTYPES` table: a test-tool name and its shell command. -/
structure TestType where
  name : String
  cmd : String
deriving DecidableEq

/-- `ESLINT_CMD` (lines 73-79): the command depends on the imported
`IS_RUNNING_IN_DOCKER` flag, which we pass as a parameter. -/
def ESLINT_CMD (isRunningInDocker : Bool) : String :=
  if isRunningInDocker then
    "eslint --rule \"import/no-unresolved: off\" --max-warnings 0 ."
  else
    "npm run failable-eslint"

/-- The `TESTTYPES` list (lines 81-102), in source order. -/
def TESTTYPES (isRunningInDocker : Bool) : List TestType :=
  [⟨("flake8"), ("flake8 --exclude=node_modules,migrations .")⟩,
   ⟨("eslint"), ESLINT_CMD isRunningInDocker⟩,
   ⟨("bandit"), ("bandit -r .")⟩,
   ⟨("py.test"), ("py.test --cov-report xml --cov-report term --cov")⟩,
   ⟨("jest"), ("npm test")⟩]

/-- Line 72. -/
def TESTTYPES_TO_REPORT_COVERAGE_ON : List String := [("py.test")]

/-- `get_testtype_names` (lines 105-110): joins the names with `joiner`; an
empty (falsy) argument list falls back to the full `TESTTYPES` list. -/
def get_testtype_names (isRunningInDocker : Bool) (testtypes : List TestType)
    (joiner : String) : String :=
  let ts := if testtypes.isEmpty then TESTTYPES isRunningInDocker else testtypes
  String.intercalate joiner (ts.map (fun t => t.name))

/-- `get_testtype` (lines 113-122): linear search of `TESTTYPES`; an unknown
name raises `CommandError` with a message listing the valid choices. -/
def get_testtype (isRunningInDocker : Bool) (n : String) : Except String TestType :=
  match (TESTTYPES isRunningInDocker).find? (fun t => t.name == n) with
  | some t => Except.ok t
  | none =>
    Except.error (("\"") ++ n ++ ("\" is not a valid test type. Please choose from ")
      ++ get_testtype_names isRunningInDocker [] (", ") ++ ("."))

/-- The list comprehension `[get_testtype(t) for t in testtype_names]`
(line 151): names are resolved left to right and the first unknown name
raises, so no later work happens. -/
def resolve (isRunningInDocker : Bool) : List String → Except String (List TestType)
  | [] => Except.ok []
  | n :: rest => do
    let t ← get_testtype isRunningInDocker n
    let ts ← resolve isRunningInDocker rest
    Except.ok (t :: ts)

/-- The `to_run` selection (lines 150-153): an empty (falsy) argument tuple
selects the whole `TESTTYPES` list. -/
def selectedTesttypes (isRunningInDocker : Bool) (names : List String) :
    Except String (List TestType) :=
  if names.isEmpty then Except.ok (TESTTYPES isRunningInDocker) else resolve isRunningInDocker names

/-- Possible states of the `coverage.xml` file as seen by `get_coverage`:
missing, unparseable XML, missing `packages/package` element, missing
`branch-rate` attribute, or a parsed `branch-rate` value. -/
inductive CoverageFile where
  | absent
  | malformed
  | noPackageElement
  | noBranchRateAttr
  | parsed (rate : ℚ)
deriving DecidableEq

/-- `get_coverage` (lines 59-70): every exception — missing file, XML parse
error, missing element (attribute access on `None`), missing attribute — is
caught by the bare `except` and turned into `None`. -/
def get_coverage : CoverageFile → Option ℚ
  | CoverageFile.parsed r => some r
  | _ => none

/-- The subprocess loop (lines 174-199).  `results i` is the exit status the
`i`-th spawned subprocess would return; `interruptAt = some i` means Ctrl-C
arrives while entry `i` is being started, so entries `0..i-1` have run and
entry `i` (and the rest) have not.  Returns the names of the test types whose
subprocess ran, the `failures` list, and whether `KeyboardInterrupt` was
caught. -/
def runLoop (results : Nat → Int) (interruptAt : Option Nat) :
    List TestType → Nat → List String × List String × Bool
  | [], _ => ([], [], false)
  | e :: rest, i =>
    if interruptAt = some i then ([], [], true)
    else
      let r := runLoop results interruptAt rest (i + 1)
      (e.name :: r.1, (if results i ≠ 0 then [e.name] else []) ++ r.2.1, r.2.2)

/-- How an invocation of the command terminates at the process level. -/
inductive Outcome where
  /-- `sys.exit(exit_code)` (line 225). -/
  | exited (code : Nat)
  /-- a `CommandError` reported to the user; the management framework prints
  the message and exits with status 1. -/
  | commandError (msg : String)
  /-- an uncaught exception: a traceback, and interpreter exit status 1. -/
  | crashed (msg : String)
deriving DecidableEq

/-- The process exit status produced by each outcome. -/
def Outcome.exitCode : Outcome → Nat
  | Outcome.exited c => c
  | Outcome.commandError _ => 1
  | Outcome.crashed _ => 1

/-- Observable result of one invocation of the command. `coverageBefore` /
`coverageAfter` are `some v` when the corresponding `get_coverage()` call
happened and returned `v`; `deltaEchoed = some d` when one of the three
delta-reporting branches (lines 216-223) ran with `diff = d`. -/
structure CommandResult where
  invoked : List String
  failures : List String
  interrupted : Bool
  coverageBefore : Option (Option ℚ)
  coverageAfter : Option (Option ℚ)
  deltaEchoed : Option ℚ
  outcome : Outcome

/-- The body of `command` (lines 129-225).  Note two source details that the
model reproduces exactly: the delta is only reported when `coverage_before`
is *truthy* (line 216), so a parsed value of `0.0` is skipped like `None`;
and line 214 interpolates `coverage_after` with the format spec `:.2%`,
which raises `TypeError` when `get_coverage()` returned `None`. -/
def command (isRunningInDocker : Bool) (testtype_names : List String)
    (results : Nat → Int) (interruptAt : Option Nat)
    (covBefore covAfter : CoverageFile) : CommandResult :=
  match selectedTesttypes isRunningInDocker testtype_names with
  | Except.error msg => ⟨[], [], false, none, none, none, Outcome.commandError msg⟩
  | Except.ok to_run =>
    let report_coverage := to_run.any (fun t => TESTTYPES_TO_REPORT_COVERAGE_ON.contains t.name)
    let coverage_before := if report_coverage then some (get_coverage covBefore) else none
    let r := runLoop results interruptAt to_run 0
    let exit_code : Nat := if r.2.1.length > 0 ∨ r.2.2 then 1 else 0
    if report_coverage then
      match get_coverage covAfter with
      | none =>
        ⟨r.1, r.2.1, r.2.2, coverage_before, some none, none,
         Outcome.crashed ("TypeError: unsupported format string passed to NoneType.__format__")⟩
      | some a =>
        let delta := match coverage_before with
          | some (some b) => if b ≠ 0 then some (a - b) else none
          | _ => none
        ⟨r.1, r.2.1, r.2.2, coverage_before, some (some a), delta, Outcome.exited exit_code⟩
    else
      ⟨r.1, r.2.1, r.2.2, coverage_before, none, none, Outcome.exited exit_code⟩

/-- A name is a valid test type when some `TESTTYPES` entry carries it. -/
def isValidTesttype (isRunningInDocker : Bool) (n : String) : Bool :=
  (TESTTYPES isRunningInDocker).any (fun t => t.name == n)

end Ultratest

namespace DataCapture

/-- Modelled from the spec: the status enum of `SubmittedPriceList`
(`data_capture/models.py` is not under `src/`); the spec lists the states
"NEW, APPROVED, REJECTED, UNAPPROVED". -/
inductive Status where
  | NEW
  | APPROVED
  | REJECTED
  | UNAPPROVED
deriving DecidableEq

/-- Modelled from the spec: a submitted price list record, reduced to the
only state the admin code reads and the transitions mutate — an identity and
the status field. -/
structure SubmittedPriceList where
  id : Nat
  status : Status
deriving DecidableEq

/-- Modelled from the spec: the `SubmittedPriceList.approve` model method
(not under `src/`); per the spec the status enum is "mutated via
approve/unapprove/reject transitions", so `approve` sets the status to
APPROVED.  The acting user, recorded by the real method, is not part of the
modelled state. -/
def SubmittedPriceList.approve (p : SubmittedPriceList) : SubmittedPriceList :=
  ⟨p.id, Status.APPROVED⟩

/-- Modelled from the spec: the `SubmittedPriceList.unapprove` model method
(not under `src/`); it sets the status to UNAPPROVED. -/
def SubmittedPriceList.unapprove (p : SubmittedPriceList) : SubmittedPriceList :=
  ⟨p.id, Status.UNAPPROVED⟩

/-- Modelled from the spec: the `SubmittedPriceList.reject` model method
(not under `src/`); it sets the status to REJECTED. -/
def SubmittedPriceList.reject (p : SubmittedPriceList) : SubmittedPriceList :=
  ⟨p.id, Status.REJECTED⟩

/-- An admin request; its attributes are irrelevant to the permission
methods below, which ignore it. -/
structure Request where
  userId : Nat
deriving DecidableEq

/-- `BaseSubmittedPriceListAdmin.fields` (lines 253-267). -/
def BaseSubmittedPriceListAdmin.fields : List String :=
  [("contract_number"), ("vendor_name"), ("is_small_business"), ("schedule_title"),
   ("contractor_site"), ("contract_start"), ("contract_end"), ("submitter"),
   ("created_at"), ("updated_at"), ("current_status"), ("status_changed_at"),
   ("status_changed_by")]

/-- `BaseSubmittedPriceListAdmin.readonly_fields` (lines 269-277). -/
def BaseSubmittedPriceListAdmin.readonly_fields : List String :=
  [("schedule_title"), ("created_at"), ("updated_at"), ("current_status"),
   ("submitter"), ("status_changed_at"), ("status_changed_by")]

/-- `BaseSubmittedPriceListAdmin.get_readonly_fields` (lines 310-313):
`if obj and obj.status is STATUS_APPROVED: return self.fields`, else the
declared `readonly_fields` (a `None` obj, i.e. the add form, is falsy). -/
def BaseSubmittedPriceListAdmin.get_readonly_fields (obj : Option SubmittedPriceList) :
    List String :=
  match obj with
  | some o =>
    if o.status = Status.APPROVED then BaseSubmittedPriceListAdmin.fields
    else BaseSubmittedPriceListAdmin.readonly_fields
  | none => BaseSubmittedPriceListAdmin.readonly_fields

/-- `SubmittedPriceListRowInline.fields` (lines 146-153). -/
def SubmittedPriceListRowInline.fields : List String :=
  [("labor_category"), ("education_level"), ("min_years_experience"),
   ("base_year_rate"), ("sin"), ("is_muted")]

/-- `SubmittedPriceListRowInline.readonly_fields` (line 155): the empty tuple. -/
def SubmittedPriceListRowInline.readonly_fields : List String := []

/-- `SubmittedPriceListRowInline.get_readonly_fields` (lines 164-167); `obj`
is the parent price list of the inline. -/
def SubmittedPriceListRowInline.get_readonly_fields (obj : Option SubmittedPriceList) :
    List String :=
  match obj with
  | some o =>
    if o.status = Status.APPROVED then SubmittedPriceListRowInline.fields
    else SubmittedPriceListRowInline.readonly_fields
  | none => SubmittedPriceListRowInline.readonly_fields

/-- `SubmittedPriceListRowInline.has_add_permission` (lines 161-162). -/
def SubmittedPriceListRowInline.has_add_permission (_request : Request) : Bool := false

/-- The `approve` admin action (lines 170-184): it excludes already-APPROVED
lists, counts the rest, approves each of them, and flashes a message with
the pre-computed count.  The queryset is a list of records; the returned
pair is the database state after the action and the flashed message. -/
def approve_action (queryset : List SubmittedPriceList) :
    List SubmittedPriceList × String :=
  let unapproved := queryset.filter (fun p => p.status != Status.APPROVED)
  let count := unapproved.length
  (queryset.map (fun p => if p.status != Status.APPROVED then p.approve else p),
   toString count ++ (" price list(s) have been approved and added to CALC."))

/-- The `unapprove` admin action (lines 192-205): it filters to APPROVED
lists, counts them, unapproves each, and flashes the count. -/
def unapprove_action (queryset : List SubmittedPriceList) :
    List SubmittedPriceList × String :=
  let approved := queryset.filter (fun p => p.status == Status.APPROVED)
  let count := approved.length
  (queryset.map (fun p => if p.status == Status.APPROVED then p.unapprove else p),
   toString count ++ (" price list(s) have been unapproved and removed from CALC."))

/-- The `reject` admin action (lines 213-224): it filters to NEW lists,
counts them, rejects each, and flashes the count. -/
def reject_action (queryset : List SubmittedPriceList) :
    List SubmittedPriceList × String :=
  let new_pricelists := queryset.filter (fun p => p.status == Status.NEW)
  let count := new_pricelists.length
  (queryset.map (fun p => if p.status == Status.NEW then p.reject else p),
   toString count ++ (" price list(s) have been rejected."))

/-- Replacement of every run of hyphens and whitespace by one hyphen —
the final `re.sub(r'[-\s]+', '-', ...)` of `slugify`.  The flag records
whether the previous character belonged to such a run. -/
def collapseSeps : Bool → List Char → List Char
  | _, [] => []
  | sep, c :: rest =>
    if c == '-' || c.isWhitespace then
      (if sep then [] else ['-']) ++ collapseSeps true rest
    else
      c :: collapseSeps false rest

/-- Python's `str.strip()` on a character list: leading and trailing
whitespace removed. -/
def pyStrip (l : List Char) : List Char :=
  ((l.dropWhile Char.isWhitespace).reverse.dropWhile Char.isWhitespace).reverse

/-- Django's `django.utils.text.slugify`, the library function used on
line 59 (not part of this repository): NFKD-normalise and encode to ASCII
(modelled as dropping non-ASCII characters), delete every character that is
not a word character, whitespace or a hyphen, strip surrounding whitespace,
lowercase, and collapse hyphen/whitespace runs to single hyphens. -/
def slugify (value : String) : String :=
  let ascii := value.toList.filter (fun c => c.toNat < 128)
  let kept := ascii.filter (fun c => c.isAlphanum || c == '_' || c.isWhitespace || c == '-')
  let stripped := (pyStrip kept).map Char.toLower
  String.mk (collapseSeps false stripped)

/-- The `i`-th candidate username (lines 60-64): the bare basename for
`i = 0`, otherwise the basename followed by the decimal digits of `i`. -/
def candidate (basename : String) (i : Nat) : String :=
  if i = 0 then basename else basename ++ toString i

/-- Python's `email.split('@')[0]`: the characters before the first `'@'`
(the whole string when there is none). -/
def emailLocalPart (email : String) : String :=
  String.mk (email.toList.takeWhile (fun c => c != '@'))

/-- The basename of line 59, `slugify(email.split('@')[0])[:15]`: the slug
of the full local part of the email, truncated to its first 15 characters. -/
def usernameBase (email : String) : String :=
  String.mk ((slugify (emailLocalPart email)).toList.take 15)

/-- `CustomUserCreationForm.generate_username` (lines 51-72): try
`basename`, then `basename1` … `basename99` (the `range(100)` loop),
returning the first candidate no existing user has; `none` models the
`raise Exception` after all 100 attempts fail.  `userExists` stands for
`User.objects.filter(username=...).exists()`. -/
def generate_username (userExists : String → Bool) (email : String) : Option String :=
  ((List.range 100).find? (fun i => !userExists (candidate (usernameBase email) i))).map
    (candidate (usernameBase email))

/-- `UndeletableModelAdmin.has_delete_permission` (lines 245-246). -/
def UndeletableModelAdmin.has_delete_permission (_request : Request)
    (_obj : Option SubmittedPriceList) : Bool := false

/-- `UndeletableModelAdmin.get_actions` (lines 240-243): the action dict of
the superclass with the `delete_selected` key removed; modelled on the list
of action keys. -/
def UndeletableModelAdmin.get_actions (superActions : List String) : List String :=
  superActions.erase ("delete_selected")

/-- `BaseSubmittedPriceListAdmin.has_add_permission` (lines 307-308). -/
def BaseSubmittedPriceListAdmin.has_add_permission (_request : Request) : Bool := false

/-- `SubmittedPriceListRowAdmin.has_add_permission` (lines 409-410). -/
def SubmittedPriceListRowAdmin.has_add_permission (_request : Request) : Bool := false

end DataCapture


namespace Ultratest

theorem runLoop_none_spec (results : Nat → Int) :
    ∀ (l : List TestType) (s : Nat),
      (runLoop results none l s).1 = l.map (fun t => t.name) ∧
      (runLoop results none l s).2.2 = false
  | [], _ => ⟨rfl, rfl⟩
  | e :: rest, s => by
    have ih := runLoop_none_spec results rest (s + 1)
    simp [runLoop, ih.1, ih.2]

theorem runLoop_failures_iff (results : Nat → Int) (interruptAt : Option Nat) :
    ∀ (l : List TestType) (s : Nat),
      ((runLoop results interruptAt l s).2.1 = [] ↔
        ∀ k, k < (runLoop results interruptAt l s).1.length → results (s + k) = 0)
  | [], s => by simp [runLoop]
  | e :: rest, s => by
    have ih := runLoop_failures_iff results interruptAt rest (s + 1)
    by_cases h : interruptAt = some s
    · simp [runLoop, h]
    · simp only [runLoop, if_neg h]
      by_cases hr : results s = 0
      · simp only [hr, ne_eq, not_true_eq_false, if_false, List.nil_append,
          List.length_cons]
        constructor
        · intro hnil k hk
          match k with
          | 0 => simpa using hr
          | j + 1 =>
            rw [show s + (j + 1) = s + 1 + j from by omega]
            exact ih.mp hnil j (by omega)
        · intro hall
          refine ih.mpr (fun j hj => ?_)
          rw [show s + 1 + j = s + (j + 1) from by omega]
          exact hall (j + 1) (by omega)
      · simp only [hr, ne_eq, not_false_eq_true, if_true, List.cons_append,
          List.length_cons]
        constructor
        · intro hnil
          exact absurd hnil (by simp)
        · intro hall
          exact absurd (hall 0 (by omega)) (by simpa using hr)

theorem runLoop_mem_failures (results : Nat → Int) :
    ∀ (l : List TestType) (s k : Nat) (hk : k < l.length),
      results (s + k) ≠ 0 →
      (l.get ⟨k, hk⟩).name ∈ (runLoop results none l s).2.1
  | [], _, k, hk, _ => absurd hk (by simp)
  | e :: rest, s, 0, _, hr => by
    rw [Nat.add_zero] at hr
    simp [runLoop, hr]
  | e :: rest, s, k + 1, hk, hr => by
    have ih := runLoop_mem_failures results rest (s + 1) k (by
      simpa using Nat.lt_of_succ_lt_succ hk)
    rw [show s + (k + 1) = s + 1 + k from by omega] at hr
    simp only [runLoop, if_neg (by simp : ¬ (none : Option Nat) = some s)]
    exact List.mem_append_right _ (ih hr)

theorem command_ok_fields (d : Bool) (names : List String) (results : Nat → Int)
    (intr : Option Nat) (cb ca : CoverageFile) (ts : List TestType)
    (hv : selectedTesttypes d names = Except.ok ts) :
    (command d names results intr cb ca).invoked = (runLoop results intr ts 0).1 ∧
    (command d names results intr cb ca).failures = (runLoop results intr ts 0).2.1 ∧
    (command d names results intr cb ca).interrupted = (runLoop results intr ts 0).2.2 ∧
    ((command d names results intr cb ca).outcome =
        Outcome.exited (if (runLoop results intr ts 0).2.1.length > 0 ∨
          (runLoop results intr ts 0).2.2 then 1 else 0) ∨
      (command d names results intr cb ca).outcome =
        Outcome.crashed ("TypeError: unsupported format string passed to NoneType.__format__")) := by
  by_cases hrc : ∃ x ∈ ts, x.name ∈ TESTTYPES_TO_REPORT_COVERAGE_ON
  · cases hg : get_coverage ca with
    | none => simp [command, hv, hrc, hg]
    | some a => simp [command, hv, hrc, hg]
  · simp [command, hv, hrc]

theorem command_ok_no_crash (d : Bool) (names : List String) (results : Nat → Int)
    (intr : Option Nat) (cb ca : CoverageFile) (ts : List TestType)
    (hv : selectedTesttypes d names = Except.ok ts)
    (hca : ts.any (fun t => TESTTYPES_TO_REPORT_COVERAGE_ON.contains t.name) = true →
      get_coverage ca ≠ none) :
    (command d names results intr cb ca).outcome =
      Outcome.exited (if (runLoop results intr ts 0).2.1.length > 0 ∨
        (runLoop results intr ts 0).2.2 then 1 else 0) := by
  by_cases hrc : ∃ x ∈ ts, x.name ∈ TESTTYPES_TO_REPORT_COVERAGE_ON
  · have hb : ts.any (fun t => TESTTYPES_TO_REPORT_COVERAGE_ON.contains t.name) = true := by
      simpa using hrc
    cases hg : get_coverage ca with
    | none => exact absurd hg (hca hb)
    | some a => simp [command, hv, hrc, hg]
  · simp [command, hv, hrc]

theorem get_testtype_invalid (d : Bool) (n : String)
    (h : isValidTesttype d n = false) :
    get_testtype d n = Except.error (("\"") ++ n
      ++ ("\" is not a valid test type. Please choose from ")
      ++ get_testtype_names d [] (", ") ++ (".")) := by
  have hf : (TESTTYPES d).find? (fun t => t.name == n) = none := by
    rw [List.find?_eq_none]
    intro x hx hpx
    have : (TESTTYPES d).any (fun t => t.name == n) = true :=
      List.any_eq_true.mpr ⟨x, hx, hpx⟩
    rw [isValidTesttype] at h
    rw [h] at this
    cases this
  unfold get_testtype
  rw [hf]

theorem get_testtype_valid (d : Bool) (n : String)
    (h : isValidTesttype d n = true) :
    ∃ t, get_testtype d n = Except.ok t := by
  have hs : ((TESTTYPES d).find? (fun t => t.name == n)).isSome := by
    rw [List.find?_isSome]
    simpa [isValidTesttype, List.any_eq_true] using h
  obtain ⟨t, ht⟩ := Option.isSome_iff_exists.mp hs
  refine ⟨t, ?_⟩
  unfold get_testtype
  rw [ht]

theorem resolve_invalid (d : Bool) :
    ∀ (names : List String), (∃ n ∈ names, isValidTesttype d n = false) →
      ∃ bad ∈ names, isValidTesttype d bad = false ∧
        resolve d names = Except.error (("\"") ++ bad
          ++ ("\" is not a valid test type. Please choose from ")
          ++ get_testtype_names d [] (", ") ++ ("."))
  | [], h => absurd h (by simp)
  | n :: rest, h => by
    by_cases hn : isValidTesttype d n = false
    · refine ⟨n, by simp, hn, ?_⟩
      simp [resolve, get_testtype_invalid d n hn, Bind.bind, Except.bind]
    · have hvn : isValidTesttype d n = true := by
        cases hh : isValidTesttype d n with
        | false => exact absurd hh hn
        | true => rfl
      have hrest : ∃ m ∈ rest, isValidTesttype d m = false := by
        rcases h with ⟨m, hm, hfm⟩
        rcases List.mem_cons.mp hm with rfl | hm'
        · exact absurd hfm hn
        · exact ⟨m, hm', hfm⟩
      obtain ⟨bad, hbad, hfbad, herr⟩ := resolve_invalid d rest hrest
      obtain ⟨t, ht⟩ := get_testtype_valid d n hvn
      refine ⟨bad, List.mem_cons_of_mem _ hbad, hfbad, ?_⟩
      simp [resolve, ht, herr, Bind.bind, Except.bind]

end Ultratest

section UltratestClaims

open Ultratest

/-- C6: with zero test-type arguments, `to_run` is the full `TESTTYPES` list,
whose names are exactly flake8, eslint, bandit, py.test, jest in that order,
and (absent an interrupt) a subprocess is spawned for each of the five, in
that order. -/
theorem ultratest_default_runs_all_five (d : Bool) (results : Nat → Int)
    (cb ca : CoverageFile) :
    selectedTesttypes d [] = Except.ok (TESTTYPES d) ∧
    (TESTTYPES d).map (fun t => t.name)
      = [("flake8"), ("eslint"), ("bandit"), ("py.test"), ("jest")] ∧
    (command d [] results none cb ca).invoked
      = [("flake8"), ("eslint"), ("bandit"), ("py.test"), ("jest")] := by
  have h2 : (TESTTYPES d).map (fun t => t.name)
      = [("flake8"), ("eslint"), ("bandit"), ("py.test"), ("jest")] := by
    cases d <;> rfl
  refine ⟨rfl, h2, ?_⟩
  obtain ⟨hinv, -, -, -⟩ := command_ok_fields d [] results none cb ca (TESTTYPES d) rfl
  rw [hinv, (runLoop_none_spec results (TESTTYPES d) 0).1, h2]

/-- C3: when some requested name is not a known test type, the command stops
with a `CommandError` whose message names the offending argument and lists
the valid choices, before any subprocess is spawned and before the coverage
file is even read. -/
theorem ultratest_unknown_name_fatal (d : Bool) (names : List String)
    (results : Nat → Int) (intr : Option Nat) (cb ca : CoverageFile)
    (h : ∃ n ∈ names, isValidTesttype d n = false) :
    ∃ bad ∈ names, isValidTesttype d bad = false ∧
      (command d names results intr cb ca).outcome = Outcome.commandError
        (("\"") ++ bad ++ ("\" is not a valid test type. Please choose from ")
          ++ get_testtype_names d [] (", ") ++ (".")) ∧
      get_testtype_names d [] (", ") = ("flake8, eslint, bandit, py.test, jest") ∧
      (command d names results intr cb ca).invoked = [] ∧
      (command d names results intr cb ca).coverageBefore = none ∧
      (command d names results intr cb ca).coverageAfter = none := by
  obtain ⟨bad, hbad, hfbad, herr⟩ := resolve_invalid d names h
  have hnames : get_testtype_names d [] (", ") = ("flake8, eslint, bandit, py.test, jest") := by
    cases d <;> rfl
  cases names with
  | nil => simp at hbad
  | cons a l =>
    have hsel : selectedTesttypes d (a :: l) = Except.error (("\"") ++ bad
        ++ ("\" is not a valid test type. Please choose from ")
        ++ get_testtype_names d [] (", ") ++ (".")) := by
      rw [selectedTesttypes, if_neg (by simp)]
      exact herr
    exact ⟨bad, hbad, hfbad, by simp [command, hsel], hnames,
      by simp [command, hsel], by simp [command, hsel], by simp [command, hsel]⟩

/-- C3 witness: the invocation `ultratest bogus` is rejected up front. -/
theorem ultratest_unknown_name_fatal_witness :
    ∃ bad ∈ [("bogus")], isValidTesttype false bad = false ∧
      (command false [("bogus")] (fun _ => 0) none CoverageFile.absent
        CoverageFile.absent).outcome = Outcome.commandError
        (("\"") ++ bad ++ ("\" is not a valid test type. Please choose from ")
          ++ get_testtype_names false [] (", ") ++ (".")) ∧
      get_testtype_names false [] (", ") = ("flake8, eslint, bandit, py.test, jest") ∧
      (command false [("bogus")] (fun _ => 0) none CoverageFile.absent
        CoverageFile.absent).invoked = [] ∧
      (command false [("bogus")] (fun _ => 0) none CoverageFile.absent
        CoverageFile.absent).coverageBefore = none ∧
      (command false [("bogus")] (fun _ => 0) none CoverageFile.absent
        CoverageFile.absent).coverageAfter = none :=
  ultratest_unknown_name_fatal false [("bogus")] (fun _ => 0) none
    CoverageFile.absent CoverageFile.absent ⟨("bogus"), by simp, by decide⟩

/-- C1 counterexample: invoking the command with the single argument `bogus`
spawns no subprocess and is not interrupted, yet the process exit status is 1
(the `CommandError` path), so "exit code 0 otherwise" fails as stated for
this invocation. -/
theorem ultratest_exit_code_cex :
    (command false [("bogus")] (fun _ => 0) none CoverageFile.absent
      CoverageFile.absent).invoked = [] ∧
    (command false [("bogus")] (fun _ => 0) none CoverageFile.absent
      CoverageFile.absent).failures = [] ∧
    (command false [("bogus")] (fun _ => 0) none CoverageFile.absent
      CoverageFile.absent).interrupted = false ∧
    (command false [("bogus")] (fun _ => 0) none CoverageFile.absent
      CoverageFile.absent).outcome.exitCode = 1 := by
  decide

/-- C1 (amended): for an invocation whose test-type names are all valid and
whose after-run coverage file parses whenever coverage is reported, the
command exits normally with status 1 exactly when some spawned subprocess
returned a non-zero status or the run was interrupted, and with status 0
exactly when every spawned subprocess returned 0 and there was no
interrupt. -/
theorem ultratest_exit_code_amended (d : Bool) (names : List String)
    (results : Nat → Int) (intr : Option Nat) (cb ca : CoverageFile)
    (ts : List TestType)
    (hv : selectedTesttypes d names = Except.ok ts)
    (hca : ts.any (fun t => TESTTYPES_TO_REPORT_COVERAGE_ON.contains t.name) = true →
      get_coverage ca ≠ none) :
    ((command d names results intr cb ca).outcome = Outcome.exited 1 ↔
      ((∃ k, k < (command d names results intr cb ca).invoked.length ∧ results k ≠ 0) ∨
        (command d names results intr cb ca).interrupted = true)) ∧
    ((command d names results intr cb ca).outcome = Outcome.exited 0 ↔
      ((∀ k, k < (command d names results intr cb ca).invoked.length → results k = 0) ∧
        (command d names results intr cb ca).interrupted = false)) := by
  obtain ⟨hinv, hfail, hint, -⟩ := command_ok_fields d names results intr cb ca ts hv
  have hout := command_ok_no_crash d names results intr cb ca ts hv hca
  rw [hinv, hint, hout]
  have hiff := runLoop_failures_iff results intr ts 0
  simp only [Nat.zero_add] at hiff
  have hPne : ¬ (runLoop results intr ts 0).2.1 = [] ↔
      ∃ k, k < (runLoop results intr ts 0).1.length ∧ results k ≠ 0 := by
    rw [hiff]
    push_neg
    rfl
  by_cases hc : (runLoop results intr ts 0).2.1.length > 0 ∨
      (runLoop results intr ts 0).2.2 = true
  · rw [if_pos hc]
    have hrhs : (∃ k, k < (runLoop results intr ts 0).1.length ∧ results k ≠ 0) ∨
        (runLoop results intr ts 0).2.2 = true := by
      rcases hc with hlen | hI
      · refine Or.inl (hPne.mp ?_)
        intro h0
        rw [h0] at hlen
        simp at hlen
      · exact Or.inr hI
    have hrhsf : ¬ ((∀ k, k < (runLoop results intr ts 0).1.length → results k = 0) ∧
        (runLoop results intr ts 0).2.2 = false) := by
      rintro ⟨hall, hIf⟩
      rcases hc with hlen | hI
      · have h0 : (runLoop results intr ts 0).2.1 = [] := hiff.mpr hall
        rw [h0] at hlen
        simp at hlen
      · rw [hI] at hIf
        cases hIf
    constructor
    · exact iff_of_true rfl hrhs
    · exact iff_of_false (by simp) hrhsf
  · rw [if_neg hc]
    push_neg at hc
    have hnil : (runLoop results intr ts 0).2.1 = [] :=
      List.length_eq_zero.mp (Nat.le_antisymm hc.1 (Nat.zero_le _))
    have hIf : (runLoop results intr ts 0).2.2 = false := by
      cases hb : (runLoop results intr ts 0).2.2 with
      | false => rfl
      | true => exact absurd hb hc.2
    have hrhsf : ¬ ((∃ k, k < (runLoop results intr ts 0).1.length ∧ results k ≠ 0) ∨
        (runLoop results intr ts 0).2.2 = true) := by
      rintro (hex | hI)
      · exact (hPne.mpr hex) hnil
      · rw [hI] at hIf
        cases hIf
    have hrhs : (∀ k, k < (runLoop results intr ts 0).1.length → results k = 0) ∧
        (runLoop results intr ts 0).2.2 = false := ⟨hiff.mp hnil, hIf⟩
    constructor
    · exact iff_of_false (by simp) hrhsf
    · exact iff_of_true rfl hrhs

/-- C1 witness: a run of flake8 alone in which the subprocess fails exits
with status 1. -/
theorem ultratest_exit_code_amended_witness :
    (command false [("flake8")] (fun _ => 1) none CoverageFile.absent
      CoverageFile.absent).outcome = Outcome.exited 1 :=
  ((ultratest_exit_code_amended false [("flake8")] (fun _ => 1) none
      CoverageFile.absent CoverageFile.absent
      [⟨("flake8"), ("flake8 --exclude=node_modules,migrations .")⟩]
      (by rfl) (by decide)).1).mpr (Or.inl ⟨0, by decide, by decide⟩)

/-- C2: with valid names and no interrupt, every requested tool's subprocess
is spawned regardless of earlier results, every failing entry's name is
aggregated into `failures`, and a non-empty `failures` list forces a
non-zero process exit status. -/
theorem ultratest_failures_nonfatal (d : Bool) (names : List String)
    (results : Nat → Int) (cb ca : CoverageFile) (ts : List TestType)
    (hv : selectedTesttypes d names = Except.ok ts) :
    (command d names results none cb ca).invoked = ts.map (fun t => t.name) ∧
    (∀ k (hk : k < ts.length), results k ≠ 0 →
      (ts.get ⟨k, hk⟩).name ∈ (command d names results none cb ca).failures) ∧
    ((command d names results none cb ca).failures ≠ [] →
      (command d names results none cb ca).outcome.exitCode = 1) := by
  obtain ⟨hinv, hfail, hint, hout⟩ := command_ok_fields d names results none cb ca ts hv
  refine ⟨?_, ?_, ?_⟩
  · rw [hinv]
    exact (runLoop_none_spec results ts 0).1
  · intro k hk hr
    rw [hfail]
    exact runLoop_mem_failures results ts 0 k hk (by simpa using hr)
  · intro hne
    rw [hfail] at hne
    rcases hout with h1 | h2
    · rw [h1]
      have hlen : (runLoop results none ts 0).2.1.length > 0 := List.length_pos.mpr hne
      simp [Outcome.exitCode, if_pos (Or.inl hlen)]
    · rw [h2]
      rfl

/-- C2 witness: with flake8 failing and bandit passing, both run, flake8 is
reported failing, and the exit status is non-zero. -/
theorem ultratest_failures_nonfatal_witness :
    (command false [("flake8"), ("bandit")] (fun i => if i = 0 then 1 else 0) none
      CoverageFile.absent CoverageFile.absent).invoked = [("flake8"), ("bandit")] ∧
    ("flake8") ∈ (command false [("flake8"), ("bandit")] (fun i => if i = 0 then 1 else 0) none
      CoverageFile.absent CoverageFile.absent).failures ∧
    (command false [("flake8"), ("bandit")] (fun i => if i = 0 then 1 else 0) none
      CoverageFile.absent CoverageFile.absent).outcome.exitCode = 1 := by
  have h := ultratest_failures_nonfatal false [("flake8"), ("bandit")]
    (fun i => if i = 0 then 1 else 0) CoverageFile.absent CoverageFile.absent
    [⟨("flake8"), ("flake8 --exclude=node_modules,migrations .")⟩,
     ⟨("bandit"), ("bandit -r .")⟩] (by rfl)
  refine ⟨by simpa using h.1, ?_, h.2.2 (by decide)⟩
  simpa using h.2.1 0 (by decide) (by decide)

/-- C4: the claim is right about the intent (the bare `except` in
`get_coverage` returns `None` on any parse failure, and the before-read
handles `None` silently) but the code is wrong for the after-read: with
py.test requested, all subprocesses passing and no interrupt, an absent
`coverage.xml` after the run makes line 214 format `None` with `:.2%`,
which raises `TypeError` and crashes the command instead of silently
reporting nothing. -/
theorem ultratest_coverage_after_crash :
    get_coverage CoverageFile.absent = none ∧
    (command false [("py.test")] (fun _ => 0) none CoverageFile.absent
      CoverageFile.absent).failures = [] ∧
    (command false [("py.test")] (fun _ => 0) none CoverageFile.absent
      CoverageFile.absent).interrupted = false ∧
    (command false [("py.test")] (fun _ => 0) none CoverageFile.absent
      CoverageFile.absent).outcome = Outcome.crashed
        ("TypeError: unsupported format string passed to NoneType.__format__") := by
  decide

/-- C5 counterexample: a before-run `branch-rate` of `0.0` is present (it
parses to `some 0`), yet because line 216 tests Python truthiness rather
than presence, no delta branch runs even though the after-value parsed. -/
theorem ultratest_zero_before_no_delta_cex :
    get_coverage (CoverageFile.parsed 0) = some 0 ∧
    (command false [("py.test")] (fun _ => 0) none (CoverageFile.parsed 0)
      (CoverageFile.parsed 1)).coverageBefore = some (some 0) ∧
    (command false [("py.test")] (fun _ => 0) none (CoverageFile.parsed 0)
      (CoverageFile.parsed 1)).coverageAfter = some (some 1) ∧
    (command false [("py.test")] (fun _ => 0) none (CoverageFile.parsed 0)
      (CoverageFile.parsed 1)).deltaEchoed = none := by
  decide

/-- C5 (amended): when a py.test-class type is among `to_run` the command
reads the package `branch-rate` before and after the run, and when the
before-value is present *and non-zero* and the after-value parses, it
reports the delta `after - before`. -/
theorem ultratest_coverage_delta_amended (d : Bool) (names : List String)
    (results : Nat → Int) (intr : Option Nat) (cb ca : CoverageFile)
    (ts : List TestType) (b a : ℚ)
    (hv : selectedTesttypes d names = Except.ok ts)
    (hrc : ∃ x ∈ ts, x.name ∈ TESTTYPES_TO_REPORT_COVERAGE_ON)
    (hb : get_coverage cb = some b) (hbne : b ≠ 0)
    (ha : get_coverage ca = some a) :
    (command d names results intr cb ca).coverageBefore = some (some b) ∧
    (command d names results intr cb ca).coverageAfter = some (some a) ∧
    (command d names results intr cb ca).deltaEchoed = some (a - b) := by
  simp [command, hv, hrc, ha, hb, hbne]

/-- C5 witness: identical before and after values of 1 report a delta of 0. -/
theorem ultratest_coverage_delta_amended_witness :
    (command false [("py.test")] (fun _ => 0) none (CoverageFile.parsed 1)
      (CoverageFile.parsed 1)).deltaEchoed = some 0 := by
  have h := ultratest_coverage_delta_amended false [("py.test")] (fun _ => 0) none
    (CoverageFile.parsed 1) (CoverageFile.parsed 1)
    [⟨("py.test"), ("py.test --cov-report xml --cov-report term --cov")⟩] 1 1
    (by rfl) (by decide) (by rfl) (by decide) (by rfl)
  simpa using h.2.2

end UltratestClaims

namespace DataCapture

theorem approve_changes (p : SubmittedPriceList) (h : p.status ≠ Status.APPROVED) :
    (p.approve != p) = true := by
  rw [bne_iff_ne]
  intro he
  exact h (by rw [← he]; simp [SubmittedPriceList.approve])

theorem unapprove_changes (p : SubmittedPriceList) (h : p.status = Status.APPROVED) :
    (p.unapprove != p) = true := by
  rw [bne_iff_ne]
  intro he
  have hs := congrArg SubmittedPriceList.status he
  rw [h] at hs
  simp [SubmittedPriceList.unapprove] at hs

theorem reject_changes (p : SubmittedPriceList) (h : p.status = Status.NEW) :
    (p.reject != p) = true := by
  rw [bne_iff_ne]
  intro he
  have hs := congrArg SubmittedPriceList.status he
  rw [h] at hs
  simp [SubmittedPriceList.reject] at hs

theorem action_zip_count (e : SubmittedPriceList → Bool)
    (f : SubmittedPriceList → SubmittedPriceList)
    (hf : ∀ p, e p = true → (f p != p) = true) :
    ∀ qs : List SubmittedPriceList,
      (((qs.map (fun p => if e p then f p else p)).zip qs).filter
        (fun pq => pq.1 != pq.2)).length = (qs.filter e).length
  | [] => rfl
  | p :: qs => by
    have ih := action_zip_count e f hf qs
    by_cases hp : e p = true
    · simp only [List.map_cons, List.zip_cons_cons, List.filter_cons, hp, if_true,
        List.filter_cons_of_pos]
      simp [hf p hp, hp, ih]
    · have hp' : e p = false := by
        cases hh : e p with
        | true => exact absurd hh hp
        | false => rfl
      simp [List.filter_cons, hp', ih]

theorem action_map_fixed (e : SubmittedPriceList → Bool)
    (f : SubmittedPriceList → SubmittedPriceList)
    (l : List SubmittedPriceList) (h : ∀ p ∈ l, e p = false) :
    l.map (fun p => if e p then f p else p) = l ∧ l.filter e = [] := by
  constructor
  · have hid : ∀ p ∈ l, (if e p then f p else p) = p := by
      intro p hp
      rw [h p hp]
      simp
    calc l.map (fun p => if e p then f p else p) = l.map (fun p => p) :=
          List.map_congr_left hid
      _ = l := List.map_id' l
  · rw [List.filter_eq_nil_iff]
    intro a ha
    simp [h a ha]

theorem approve_result_status (qs : List SubmittedPriceList) :
    ∀ q ∈ (approve_action qs).1, q.status = Status.APPROVED := by
  intro q hq
  simp only [approve_action] at hq
  obtain ⟨p, hp, rfl⟩ := List.mem_map.mp hq
  by_cases hp' : p.status = Status.APPROVED
  · simp [hp']
  · simp [hp', SubmittedPriceList.approve]

theorem unapprove_result_not_approved (qs : List SubmittedPriceList) :
    ∀ q ∈ (unapprove_action qs).1, (q.status == Status.APPROVED) = false := by
  intro q hq
  simp only [unapprove_action] at hq
  obtain ⟨p, hp, rfl⟩ := List.mem_map.mp hq
  by_cases hp' : p.status = Status.APPROVED
  · simp [hp', SubmittedPriceList.unapprove]
  · simp [hp']

theorem reject_result_not_new (qs : List SubmittedPriceList) :
    ∀ q ∈ (reject_action qs).1, (q.status == Status.NEW) = false := by
  intro q hq
  simp only [reject_action] at hq
  obtain ⟨p, hp, rfl⟩ := List.mem_map.mp hq
  by_cases hp' : p.status = Status.NEW
  · simp [hp', SubmittedPriceList.reject]
  · simp [hp']

theorem approve_action_fixed (l : List SubmittedPriceList)
    (h : ∀ q ∈ l, q.status = Status.APPROVED) :
    approve_action l = (l, ("0 price list(s) have been approved and added to CALC.")) := by
  have hfix := action_map_fixed (fun p => p.status != Status.APPROVED)
    SubmittedPriceList.approve l (fun p hp => by simp [h p hp])
  simp only [approve_action]
  rw [hfix.1, hfix.2]
  rfl

theorem unapprove_action_fixed (l : List SubmittedPriceList)
    (h : ∀ q ∈ l, (q.status == Status.APPROVED) = false) :
    unapprove_action l = (l, ("0 price list(s) have been unapproved and removed from CALC.")) := by
  have hfix := action_map_fixed (fun p => p.status == Status.APPROVED)
    SubmittedPriceList.unapprove l h
  simp only [unapprove_action]
  rw [hfix.1, hfix.2]
  rfl

theorem reject_action_fixed (l : List SubmittedPriceList)
    (h : ∀ q ∈ l, (q.status == Status.NEW) = false) :
    reject_action l = (l, ("0 price list(s) have been rejected.")) := by
  have hfix := action_map_fixed (fun p => p.status == Status.NEW)
    SubmittedPriceList.reject l h
  simp only [reject_action]
  rw [hfix.1, hfix.2]
  rfl

end DataCapture

section DataCaptureClaims

open DataCapture

/-- C7: for an APPROVED price list the change form and the row inline return
the full declared field tuple as the read-only set (read-only set = full
field set); for every other status they return the designated
`readonly_fields` (which is empty for the inline). -/
theorem admin_readonly_when_approved (obj : SubmittedPriceList) :
    (obj.status = Status.APPROVED →
      BaseSubmittedPriceListAdmin.get_readonly_fields (some obj)
        = BaseSubmittedPriceListAdmin.fields ∧
      SubmittedPriceListRowInline.get_readonly_fields (some obj)
        = SubmittedPriceListRowInline.fields) ∧
    (obj.status ≠ Status.APPROVED →
      BaseSubmittedPriceListAdmin.get_readonly_fields (some obj)
        = BaseSubmittedPriceListAdmin.readonly_fields ∧
      SubmittedPriceListRowInline.get_readonly_fields (some obj)
        = SubmittedPriceListRowInline.readonly_fields) := by
  constructor <;> intro h <;>
    constructor <;>
      simp [BaseSubmittedPriceListAdmin.get_readonly_fields,
        SubmittedPriceListRowInline.get_readonly_fields, h]

/-- C7 witness: an APPROVED list's form is fully read-only, a NEW list's row
inline has no read-only fields. -/
theorem admin_readonly_when_approved_witness :
    BaseSubmittedPriceListAdmin.get_readonly_fields
        (some ⟨0, Status.APPROVED⟩) = BaseSubmittedPriceListAdmin.fields ∧
    SubmittedPriceListRowInline.get_readonly_fields
        (some ⟨1, Status.NEW⟩) = SubmittedPriceListRowInline.readonly_fields :=
  ⟨((admin_readonly_when_approved ⟨0, Status.APPROVED⟩).1 rfl).1,
   ((admin_readonly_when_approved ⟨1, Status.NEW⟩).2 (by decide)).2⟩

/-- C10: neither price-list admin screens nor the row admin permit adding or
deleting: the permission hooks are constantly false and `get_actions`
removes the bulk `delete_selected` action inherited from the framework. -/
theorem admin_undeletable_unaddable (request : Request)
    (obj : Option SubmittedPriceList) (superActions : List String) :
    UndeletableModelAdmin.has_delete_permission request obj = false ∧
    BaseSubmittedPriceListAdmin.has_add_permission request = false ∧
    SubmittedPriceListRowAdmin.has_add_permission request = false ∧
    SubmittedPriceListRowInline.has_add_permission request = false ∧
    (superActions.Nodup →
      ("delete_selected") ∉ UndeletableModelAdmin.get_actions superActions) := by
  refine ⟨rfl, rfl, rfl, rfl, fun h => ?_⟩
  show ("delete_selected") ∉ superActions.erase ("delete_selected")
  exact h.not_mem_erase

/-- C10 witness: with the framework's default action set, the delete action
is gone and permissions are denied. -/
theorem admin_undeletable_unaddable_witness :
    UndeletableModelAdmin.has_delete_permission ⟨0⟩ none = false ∧
    ("delete_selected") ∉ UndeletableModelAdmin.get_actions
      [("delete_selected"), ("approve")] :=
  ⟨(admin_undeletable_unaddable ⟨0⟩ none [("delete_selected"), ("approve")]).1,
   (admin_undeletable_unaddable ⟨0⟩ none
     [("delete_selected"), ("approve")]).2.2.2.2 (by decide)⟩

/-- C8 counterexample: for `abcdefghij.klmnop@gsa.gov` with no existing
users, the code returns the first 15 characters of the slug of the local
part (`abcdefghijklmno`), while the claim's base — the slug of the first 15
characters of the local part — is `abcdefghijklmn`, and the returned name
matches none of the claim's 100 candidates. -/
theorem generate_username_truncation_cex :
    generate_username (fun _ => false) ("abcdefghij.klmnop@gsa.gov")
      = some ("abcdefghijklmno") ∧
    slugify (String.mk ((emailLocalPart
      ("abcdefghij.klmnop@gsa.gov")).toList.take 15)) = ("abcdefghijklmn") ∧
    (∀ i, i < 100 → ("abcdefghijklmno") ≠ candidate ("abcdefghijklmn") i) := by
  decide

/-- Auxiliary: `find?` over `range' s n` returns the first index satisfying
the predicate — every earlier index in the range fails it. -/
theorem range'_find?_first (p : Nat → Bool) :
    ∀ (n s i : Nat), (List.range' s n).find? p = some i →
      p i = true ∧ i < s + n ∧ s ≤ i ∧ ∀ j, s ≤ j → j < i → p j = false
  | 0, s, i, h => by simp at h
  | n + 1, s, i, h => by
    rw [List.range'_succ] at h
    by_cases hs : p s = true
    · rw [List.find?_cons_of_pos _ hs] at h
      obtain rfl : s = i := by simpa using h
      exact ⟨hs, by omega, Nat.le_refl s, fun j h1 h2 => absurd h1 (by omega)⟩
    · rw [List.find?_cons_of_neg _ (by simpa using hs)] at h
      obtain ⟨hp, hub, hlb, hall⟩ := range'_find?_first p n (s + 1) i h
      refine ⟨hp, by omega, by omega, fun j h1 h2 => ?_⟩
      rcases Nat.eq_or_lt_of_le h1 with heq | hgt
      · rw [← heq]
        cases hps : p s with
        | false => rfl
        | true => exact absurd hps hs
      · exact hall j (by omega) h2

/-- Auxiliary: `find?` over `range n` returns the least index satisfying the
predicate. -/
theorem range_find?_first (p : Nat → Bool) (n i : Nat)
    (h : (List.range n).find? p = some i) :
    p i = true ∧ i < n ∧ ∀ j, j < i → p j = false := by
  rw [List.range_eq_range'] at h
  obtain ⟨hp, hub, -, hall⟩ := range'_find?_first p n 0 i h
  exact ⟨hp, by omega, fun j hj => hall j (Nat.zero_le j) hj⟩

/-- C8 (amended): `generate_username` returns a name no existing user has,
namely the *first free* candidate in the order basename, basename1, …,
basename99, where the basename is the first 15 characters of the slug of
the email's local part — so every candidate before the returned one is
taken; in particular the bare basename is returned whenever it is free, and
a numeric suffix 1 through 99 appears only when needed; it raises (returns
`none`) exactly when all 100 candidates are taken. -/
theorem generate_username_amended (userExists : String → Bool) (email : String) :
    (∀ u, generate_username userExists email = some u →
      userExists u = false ∧
      (∃ i, i < 100 ∧ u = candidate (usernameBase email) i ∧
        ∀ j, j < i → userExists (candidate (usernameBase email) j) = true) ∧
      (u = usernameBase email ∨
        ∃ i, 1 ≤ i ∧ i ≤ 99 ∧ u = usernameBase email ++ toString i)) ∧
    (userExists (usernameBase email) = false →
      generate_username userExists email = some (usernameBase email)) ∧
    (generate_username userExists email = none ↔
      ∀ i, i < 100 → userExists (candidate (usernameBase email) i) = true) := by
  have hmain : ∀ u, generate_username userExists email = some u →
      userExists u = false ∧
      (∃ i, i < 100 ∧ u = candidate (usernameBase email) i ∧
        ∀ j, j < i → userExists (candidate (usernameBase email) j) = true) ∧
      (u = usernameBase email ∨
        ∃ i, 1 ≤ i ∧ i ≤ 99 ∧ u = usernameBase email ++ toString i) := by
    intro u hu
    unfold generate_username at hu
    cases hf : (List.range 100).find?
        (fun i => !userExists (candidate (usernameBase email) i)) with
    | none =>
      rw [hf] at hu
      simp at hu
    | some i =>
      rw [hf] at hu
      have hui : candidate (usernameBase email) i = u := by simpa using hu
      obtain ⟨hp, hlt, hfirst⟩ := range_find?_first _ 100 i hf
      refine ⟨?_, ⟨i, hlt, hui.symm, fun j hj => ?_⟩, ?_⟩
      · rw [← hui]
        simpa using hp
      · simpa using hfirst j hj
      · rcases Nat.eq_zero_or_pos i with rfl | hpos
        · left
          rw [← hui]
          rfl
        · right
          refine ⟨i, hpos, by omega, ?_⟩
          rw [← hui]
          simp [candidate, Nat.pos_iff_ne_zero.mp hpos]
  have hnone : generate_username userExists email = none ↔
      ∀ i, i < 100 → userExists (candidate (usernameBase email) i) = true := by
    unfold generate_username
    constructor
    · intro hn i hi
      cases hf : (List.range 100).find?
          (fun i => !userExists (candidate (usernameBase email) i)) with
      | none =>
        have := List.find?_eq_none.mp hf i (List.mem_range.mpr hi)
        simpa using this
      | some j =>
        rw [hf] at hn
        simp at hn
    · intro hall
      have hfn : (List.range 100).find?
          (fun i => !userExists (candidate (usernameBase email) i)) = none := by
        rw [List.find?_eq_none]
        intro i hi
        simp [hall i (List.mem_range.mp hi)]
      rw [hfn]
      rfl
  refine ⟨hmain, ?_, hnone⟩
  intro hfree
  cases hg : generate_username userExists email with
  | none =>
    have h0 := hnone.mp hg 0 (by omega)
    rw [show candidate (usernameBase email) 0 = usernameBase email from rfl] at h0
    rw [hfree] at h0
    cases h0
  | some u =>
    obtain ⟨-, ⟨i, hi, hu, hjall⟩, -⟩ := hmain u hg
    cases i with
    | zero =>
      rw [hu]
      rfl
    | succ m =>
      have h0 := hjall 0 (by omega)
      rw [show candidate (usernameBase email) 0 = usernameBase email from rfl] at h0
      rw [hfree] at h0
      cases h0

/-- C8 witness: with no user taken, `jane.doe@gsa.gov` gets the bare
basename; with `janedoe` taken, it gets suffix 1, every earlier candidate
being taken. -/
theorem generate_username_amended_witness :
    generate_username (fun _ => false) ("jane.doe@gsa.gov")
      = some (usernameBase ("jane.doe@gsa.gov")) ∧
    ((fun u => u == ("janedoe")) ("janedoe1") = false ∧
      (∃ i, i < 100 ∧ ("janedoe1") = candidate (usernameBase ("jane.doe@gsa.gov")) i ∧
        ∀ j, j < i → (fun u => u == ("janedoe"))
          (candidate (usernameBase ("jane.doe@gsa.gov")) j) = true) ∧
      (("janedoe1") = usernameBase ("jane.doe@gsa.gov") ∨
        ∃ i, 1 ≤ i ∧ i ≤ 99 ∧ ("janedoe1")
          = usernameBase ("jane.doe@gsa.gov") ++ toString i)) :=
  ⟨(generate_username_amended (fun _ => false) ("jane.doe@gsa.gov")).2.1 rfl,
   (generate_username_amended (fun u => u == ("janedoe")) ("jane.doe@gsa.gov")).1
     ("janedoe1") (by decide)⟩

/-- C9: each bulk action transitions exactly the entries in its eligible
status — approve acts on every list not already APPROVED and fixes the rest,
unapprove only on APPROVED lists, reject only on NEW lists; re-running an
action on its own output changes nothing and reports a count of 0; and each
flashed count equals the number of entries that actually changed. -/
theorem price_list_actions_eligible_only (qs : List SubmittedPriceList) :
    ((∀ (k : Nat) (p : SubmittedPriceList), qs[k]? = some p → p.status ≠ Status.APPROVED →
        (approve_action qs).1[k]? = some p.approve) ∧
      (∀ (k : Nat) (p : SubmittedPriceList), qs[k]? = some p → p.status = Status.APPROVED →
        (approve_action qs).1[k]? = some p) ∧
      approve_action ((approve_action qs).1)
        = ((approve_action qs).1,
           ("0 price list(s) have been approved and added to CALC.")) ∧
      (approve_action qs).2
        = toString ((((approve_action qs).1.zip qs).filter
            (fun pq => pq.1 != pq.2)).length)
          ++ (" price list(s) have been approved and added to CALC.")) ∧
    ((∀ (k : Nat) (p : SubmittedPriceList), qs[k]? = some p → p.status = Status.APPROVED →
        (unapprove_action qs).1[k]? = some p.unapprove) ∧
      (∀ (k : Nat) (p : SubmittedPriceList), qs[k]? = some p → p.status ≠ Status.APPROVED →
        (unapprove_action qs).1[k]? = some p) ∧
      unapprove_action ((unapprove_action qs).1)
        = ((unapprove_action qs).1,
           ("0 price list(s) have been unapproved and removed from CALC.")) ∧
      (unapprove_action qs).2
        = toString ((((unapprove_action qs).1.zip qs).filter
            (fun pq => pq.1 != pq.2)).length)
          ++ (" price list(s) have been unapproved and removed from CALC.")) ∧
    ((∀ (k : Nat) (p : SubmittedPriceList), qs[k]? = some p → p.status = Status.NEW →
        (reject_action qs).1[k]? = some p.reject) ∧
      (∀ (k : Nat) (p : SubmittedPriceList), qs[k]? = some p → p.status ≠ Status.NEW →
        (reject_action qs).1[k]? = some p) ∧
      reject_action ((reject_action qs).1)
        = ((reject_action qs).1, ("0 price list(s) have been rejected.")) ∧
      (reject_action qs).2
        = toString ((((reject_action qs).1.zip qs).filter
            (fun pq => pq.1 != pq.2)).length)
          ++ (" price list(s) have been rejected.")) := by
  refine ⟨⟨?_, ?_, ?_, ?_⟩, ⟨?_, ?_, ?_, ?_⟩, ⟨?_, ?_, ?_, ?_⟩⟩
  · intro k p hk hp
    simp [approve_action, hk, hp]
  · intro k p hk hp
    simp [approve_action, hk, hp]
  · exact approve_action_fixed _ (approve_result_status qs)
  · have hc := action_zip_count (fun p => p.status != Status.APPROVED)
      SubmittedPriceList.approve
      (fun p hp => approve_changes p (by simpa [bne_iff_ne] using hp)) qs
    simp only [approve_action]
    rw [hc]
  · intro k p hk hp
    simp [unapprove_action, hk, hp]
  · intro k p hk hp
    simp [unapprove_action, hk, hp]
  · exact unapprove_action_fixed _ (unapprove_result_not_approved qs)
  · have hc := action_zip_count (fun p => p.status == Status.APPROVED)
      SubmittedPriceList.unapprove
      (fun p hp => unapprove_changes p (by simpa using hp)) qs
    simp only [unapprove_action]
    rw [hc]
  · intro k p hk hp
    simp [reject_action, hk, hp]
  · intro k p hk hp
    simp [reject_action, hk, hp]
  · exact reject_action_fixed _ (reject_result_not_new qs)
  · have hc := action_zip_count (fun p => p.status == Status.NEW)
      SubmittedPriceList.reject
      (fun p hp => reject_changes p (by simpa using hp)) qs
    simp only [reject_action]
    rw [hc]

/-- C9 witness: approve transitions a NEW list and fixes an APPROVED one;
unapprove and reject transition their eligible statuses. -/
theorem price_list_actions_eligible_only_witness :
    (approve_action [(⟨0, Status.NEW⟩ : SubmittedPriceList),
        ⟨1, Status.APPROVED⟩]).1[0]?
      = some (SubmittedPriceList.approve ⟨0, Status.NEW⟩) ∧
    (approve_action [(⟨0, Status.NEW⟩ : SubmittedPriceList),
        ⟨1, Status.APPROVED⟩]).1[1]? = some ⟨1, Status.APPROVED⟩ ∧
    (unapprove_action [(⟨1, Status.APPROVED⟩ : SubmittedPriceList)]).1[0]?
      = some (SubmittedPriceList.unapprove ⟨1, Status.APPROVED⟩) ∧
    (reject_action [(⟨2, Status.NEW⟩ : SubmittedPriceList)]).1[0]?
      = some (SubmittedPriceList.reject ⟨2, Status.NEW⟩) :=
  ⟨(price_list_actions_eligible_only [⟨0, Status.NEW⟩, ⟨1, Status.APPROVED⟩]).1.1
      0 ⟨0, Status.NEW⟩ rfl (by decide),
   (price_list_actions_eligible_only [⟨0, Status.NEW⟩, ⟨1, Status.APPROVED⟩]).1.2.1
      1 ⟨1, Status.APPROVED⟩ rfl rfl,
   (price_list_actions_eligible_only [⟨1, Status.APPROVED⟩]).2.1.1
      0 ⟨1, Status.APPROVED⟩ rfl rfl,
   (price_list_actions_eligible_only [⟨2, Status.NEW⟩]).2.2.1
      0 ⟨2, Status.NEW⟩ rfl rfl⟩

end DataCaptureClaims
